import Mathlib

/-!
Verification development for the zhang plain-text accounting core.

The definitions below are a shallow embedding of the repository's code:

* `src/core/src/domains/mod.rs` — the relational-index `Operations` (lot
  queries, price lookup, tag/link insertion, balance queries, options map,
  error insertion, account closing).  SQL tables are embedded as Lean lists
  of row structures, kept in insertion (rowid) order; a `SELECT` without an
  `ORDER BY`, or whose `ORDER BY` keys tie, yields rows in that order, and
  `fetch_optional` takes the first of them.
* `src/src/target/text.rs` — the text serializer for postings.

Monetary numbers are arbitrary-precision decimals in the source
(`BigDecimal`, stored as their decimal string); they are embedded as `ℚ`.
The one place where the source reads monetary numbers back as `f64`
(`LotRow`) is treated separately by the representation development below.

Parts of the repository that the claims depend on but that are not among
the provided source files (the directive processor `process.rs`, the
options resolver `options.rs`, the error-type enum of `domains/schemas.rs`)
are modelled from the specification; each such definition carries a doc
comment beginning with `Modelled from the spec:`.
-/

namespace Zhang

/-! ### commodity_lots table (lot matching) -/

/-- A row of the `commodity_lots` table
(`INSERT INTO commodity_lots (account, commodity, datetime, amount, price_amount, price_commodity)`,
`src/core/src/domains/mod.rs` lines 300-309).  `datetime` is nullable; the
numeric columns hold decimal text, embedded as `ℚ`. -/
structure CommodityLot where
  account : String
  commodity : String
  datetime : Option Nat
  amount : ℚ
  price_amount : Option ℚ
  price_commodity : Option String
deriving DecidableEq, Repr

/-- The three columns selected by the lot queries, the source's `LotRow`
struct (`domains/mod.rs` lines 35-40).  In the source these two numeric
fields are read back as `f64`; here their values are embedded exactly,
which is faithful for the integral quantities appearing below. -/
structure LotRow where
  amount : ℚ
  price_amount : Option ℚ
  price_commodity : Option String
deriving DecidableEq, Repr

/-- Projection of a `commodity_lots` row onto the selected `LotRow` columns. -/
def CommodityLot.toLotRow (l : CommodityLot) : LotRow :=
  ⟨l.amount, l.price_amount, l.price_commodity⟩

/-- Embeds `Operations::insert_account_lot` (`domains/mod.rs` lines 295-313): appends a
row, always binding NULL for the `datetime` column (`None::<NaiveDateTime>`). -/
def insert_account_lot (tbl : List CommodityLot) (account_name currency : String)
    (price_amount : Option ℚ) (price_commodity : Option String) (amount : ℚ) :
    List CommodityLot :=
  tbl ++ [⟨account_name, currency, none, amount, price_amount, price_commodity⟩]

/-- The WHERE clause of `Operations::account_lot_fifo` (`domains/mod.rs` lines
242-250): account and commodity match, the price commodity equals the given
one or is NULL, and either the lot is costed (`price_amount` non-NULL) with a
non-zero amount, or it is a default lot (`price_amount` NULL). -/
def lotFifoWhere (account_name currency price_commodity : String)
    (l : CommodityLot) : Bool :=
  l.account == account_name && l.commodity == currency &&
    (l.price_commodity == some price_commodity || l.price_commodity == none) &&
    ((!(l.amount == 0) && l.price_amount.isSome) || l.price_amount == none)

/-- Whether row `a` may precede row `b` under SQLite `ORDER BY datetime DESC`
(larger datetimes first, NULLs last, ties keep scan order). -/
def dtDescLe (a b : Option Nat) : Bool :=
  match a, b with
  | some x, some y => y ≤ x
  | some _, none => true
  | none, some _ => false
  | none, none => true

/-- Stable insertion into a list sorted by `ORDER BY datetime DESC`. -/
def insertDtDesc (r : CommodityLot) : List CommodityLot → List CommodityLot
  | [] => [r]
  | x :: xs => if dtDescLe r.datetime x.datetime then r :: x :: xs else x :: insertDtDesc r xs

/-- Stable sort realizing `ORDER BY datetime DESC`. -/
def orderByDatetimeDesc : List CommodityLot → List CommodityLot
  | [] => []
  | x :: xs => insertDtDesc x (orderByDatetimeDesc xs)

/-- Embeds `Operations::account_lot_fifo` (`domains/mod.rs` lines 239-258): filter by
the WHERE clause, `ORDER BY datetime DESC`, and take the first row
(`fetch_optional`), projected onto the `LotRow` columns. -/
def account_lot_fifo (tbl : List CommodityLot)
    (account_name currency price_commodity : String) : Option LotRow :=
  ((orderByDatetimeDesc (tbl.filter (lotFifoWhere account_name currency price_commodity))).head?).map
    CommodityLot.toLotRow

/-- Embeds `Operations::update_account_lot` (`domains/mod.rs` lines 259-277): set
`amount` on the rows matching account, commodity and the exact price tuple. -/
def update_account_lot (tbl : List CommodityLot) (account_name currency : String)
    (price_amount : ℚ) (price_commodity : String) (amount : ℚ) : List CommodityLot :=
  tbl.map fun l =>
    if l.account == account_name && l.commodity == currency &&
        l.price_amount == some price_amount && l.price_commodity == some price_commodity
    then { l with amount := amount } else l

/-- Embeds `Operations::update_account_default_lot` (`domains/mod.rs` lines 279-293):
set `amount` on the rows matching account and commodity whose price tuple is
NULL. -/
def update_account_default_lot (tbl : List CommodityLot) (account_name currency : String)
    (amount : ℚ) : List CommodityLot :=
  tbl.map fun l =>
    if l.account == account_name && l.commodity == currency &&
        l.price_amount == none && l.price_commodity == none
    then { l with amount := amount } else l

/-- Modelled from the spec: the transaction processor (`process.rs`, not among
the provided sources) handles a posting with negative quantity `qty` against
an account holding costed lots by selecting a lot with `account_lot_fifo`,
taking the selected lot's price as the realized acquisition price, and
updating the selected lot's quantity accordingly (spec section 4.7 step 5). -/
def reduce_lot_fifo (tbl : List CommodityLot)
    (account_name currency price_commodity : String) (qty : ℚ) : List CommodityLot :=
  match account_lot_fifo tbl account_name currency price_commodity with
  | none => tbl
  | some lot =>
    match lot.price_amount, lot.price_commodity with
    | some pa, some pc => update_account_lot tbl account_name currency pa pc (lot.amount + qty)
    | _, _ => update_account_default_lot tbl account_name currency (lot.amount + qty)

/-- The S6 scenario, first purchase: 10 AAPL at 100 USD. -/
def c1AfterFirstBuy : List CommodityLot :=
  insert_account_lot [] "Assets:Broker" "AAPL" (some 100) (some "USD") 10

/-- The S6 scenario, second purchase: 5 AAPL at 120 USD. -/
def c1AfterSecondBuy : List CommodityLot :=
  insert_account_lot c1AfterFirstBuy "Assets:Broker" "AAPL" (some 120) (some "USD") 5

/-- The S6 scenario, sale of 8 AAPL. -/
def c1AfterSell : List CommodityLot :=
  reduce_lot_fifo c1AfterSecondBuy "Assets:Broker" "AAPL" "USD" (-8)

/-- The eligibility test that claim C1 asserts: lots with non-zero quantity
whose price commodity equals the explicit constraint. -/
def claimC1Eligible (account_name currency price_commodity : String)
    (l : CommodityLot) : Bool :=
  l.account == account_name && l.commodity == currency &&
    !(l.amount == 0) && l.price_commodity == some price_commodity

/-- Helper: sorting by `datetime DESC` is the identity when every row's
datetime is NULL — which `insert_account_lot` guarantees, since it always
binds NULL. -/
theorem orderByDatetimeDesc_of_all_none :
    ∀ tbl : List CommodityLot, (∀ l ∈ tbl, l.datetime = none) →
      orderByDatetimeDesc tbl = tbl := by
  intro tbl h
  induction tbl with
  | nil => rfl
  | cons x xs ih =>
    have hx : x.datetime = none := h x (List.mem_cons_self x xs)
    have hxs : ∀ l ∈ xs, l.datetime = none := fun l hl => h l (List.mem_cons_of_mem x hl)
    have ih' := ih hxs
    cases xs with
    | nil => rfl
    | cons y ys =>
      have hy : y.datetime = none := hxs y (List.mem_cons_self y ys)
      simp only [orderByDatetimeDesc] at ih' ⊢
      rw [ih', insertDtDesc, hx, hy]
      simp [dtDescLe]

/-- C1 (counterexample): the claim's selection rule fails on the code.  With
an exhausted default lot (quantity 0, NULL price tuple) inserted before a
costed lot of 10 AAPL at 100 USD, `account_lot_fifo` — whose WHERE clause
admits default lots regardless of their quantity — returns the zero-quantity
default lot, while the claim requires the oldest lot with non-zero quantity
and matching price commodity, i.e. the 100 USD lot. -/
theorem c1_fifo_counterexample :
    ¬ (∀ (tbl : List CommodityLot) (a c pc : String),
        (∀ l ∈ tbl, l.datetime = none) →
          account_lot_fifo tbl a c pc
            = ((tbl.filter (claimC1Eligible a c pc)).head?).map CommodityLot.toLotRow) := by
  intro h
  have hx := h [⟨"Assets:Broker", "AAPL", none, 0, none, none⟩,
      ⟨"Assets:Broker", "AAPL", none, 10, some 100, some "USD"⟩]
    "Assets:Broker" "AAPL" "USD" (by intro l hl; fin_cases hl <;> rfl)
  norm_num [account_lot_fifo, lotFifoWhere, claimC1Eligible, orderByDatetimeDesc,
    insertDtDesc, dtDescLe, CommodityLot.toLotRow] at hx

/-- C1 (amended): since `insert_account_lot` always stores a NULL `datetime`,
the `ORDER BY datetime DESC` of `account_lot_fifo` leaves rows in insertion
order, so the selected lot is the oldest-inserted row satisfying the code's
WHERE clause (price commodity equal to the constraint or NULL; non-zero
quantity required only of costed lots, default lots qualify regardless).
Among costed lots this is FIFO; in particular, after buying 10 AAPL at
100 USD then 5 AAPL at 120 USD, selling 8 AAPL consumes the 100 USD lot,
leaving it at 2 AAPL with the 120 USD lot untouched at 5 AAPL. -/
theorem c1_lot_selection :
    (∀ (tbl : List CommodityLot) (a c pc : String),
        (∀ l ∈ tbl, l.datetime = none) →
          account_lot_fifo tbl a c pc
            = ((tbl.filter (lotFifoWhere a c pc)).head?).map CommodityLot.toLotRow) ∧
    account_lot_fifo c1AfterSecondBuy "Assets:Broker" "AAPL" "USD"
        = some ⟨10, some 100, some "USD"⟩ ∧
    c1AfterSell =
      [⟨"Assets:Broker", "AAPL", none, 2, some 100, some "USD"⟩,
       ⟨"Assets:Broker", "AAPL", none, 5, some 120, some "USD"⟩] := by
  refine ⟨?_, ?_, ?_⟩
  · intro tbl a c pc h
    unfold account_lot_fifo
    rw [orderByDatetimeDesc_of_all_none _ (fun l hl => h l (List.mem_of_mem_filter hl))]
  · norm_num [c1AfterSecondBuy, c1AfterFirstBuy, insert_account_lot, account_lot_fifo,
      lotFifoWhere, orderByDatetimeDesc, insertDtDesc, dtDescLe, CommodityLot.toLotRow]
  · norm_num [c1AfterSell, c1AfterSecondBuy, c1AfterFirstBuy, reduce_lot_fifo,
      account_lot_fifo, insert_account_lot, lotFifoWhere, orderByDatetimeDesc, insertDtDesc,
      dtDescLe, update_account_lot, CommodityLot.toLotRow]

/-- Witness for C1: the amended selection rule applied at the S6 lot table. -/
theorem c1_lot_selection_witness :
    (∀ l ∈ c1AfterSecondBuy, l.datetime = none) ∧
      account_lot_fifo c1AfterSecondBuy "Assets:Broker" "AAPL" "USD"
        = ((c1AfterSecondBuy.filter (lotFifoWhere "Assets:Broker" "AAPL" "USD")).head?).map
            CommodityLot.toLotRow :=
  ⟨fun l hl => by fin_cases hl <;> rfl,
   c1_lot_selection.1 c1AfterSecondBuy "Assets:Broker" "AAPL" "USD"
     (fun l hl => by fin_cases hl <;> rfl)⟩

/-! ### prices table (price lookup) -/

/-- A row of the `prices` table
(`INSERT INTO prices (datetime, commodity, amount, target_commodity)`,
`src/core/src/domains/mod.rs` lines 190-196). -/
structure PriceRow where
  datetime : Nat
  commodity : String
  amount : ℚ
  target_commodity : String
deriving DecidableEq, Repr

/-- Embeds `Operations::insert_price` (`domains/mod.rs` lines 187-198): appends a row,
the amount bound as its decimal string. -/
def insert_price (tbl : List PriceRow) (datetime : Nat) (commodity : String)
    (amount : ℚ) (target_commodity : String) : List PriceRow :=
  tbl ++ [⟨datetime, commodity, amount, target_commodity⟩]

/-- Embeds `Operations::get_price` (`domains/mod.rs` lines 353-364): the SQL is
`select ... from prices where datetime <= $1 and commodity = $2 and
target_commodity = $3` with **no ORDER BY**, read with `fetch_optional`, so
the first matching row in table (insertion) order is returned. -/
def get_price (tbl : List PriceRow) (datetime : Nat) (f t : String) : Option PriceRow :=
  (tbl.filter fun p =>
    decide (p.datetime ≤ datetime) && p.commodity == f && p.target_commodity == t).head?

/-- The lookup as the spec words it: among rows with matching commodities and
datetime on or before the given date, the one with the most recent datetime,
or none when no row matches. -/
def get_price_most_recent (tbl : List PriceRow) (datetime : Nat) (f t : String) :
    Option PriceRow :=
  (tbl.filter fun p =>
    decide (p.datetime ≤ datetime) && p.commodity == f && p.target_commodity == t).foldl
    (fun acc p =>
      match acc with
      | none => some p
      | some q => if q.datetime < p.datetime then some p else some q) none

/-- Price history with two USD→CNY points, at time 1 (rate 7) and time 2 (rate 8). -/
def c2Prices : List PriceRow :=
  insert_price (insert_price [] 1 "USD" 7 "CNY") 2 "USD" 8 "CNY"

/-- C2: `get_price` lacks an `ORDER BY`, so it returns the **first inserted**
matching price point instead of the most recent one on or before the query
date.  With USD→CNY prices recorded at time 1 (rate 7) and time 2 (rate 8),
a lookup at time 3 returns the time-1 point, while the claim (and the
`order by datetime desc ... limit 1` pattern used by the sibling query
`account_target_day_balance`) requires the time-2 point. -/
theorem c2_get_price_divergence :
    get_price c2Prices 3 "USD" "CNY" = some ⟨1, "USD", 7, "CNY"⟩ ∧
    get_price_most_recent c2Prices 3 "USD" "CNY" = some ⟨2, "USD", 8, "CNY"⟩ ∧
    get_price c2Prices 3 "USD" "CNY" ≠ get_price_most_recent c2Prices 3 "USD" "CNY" := by
  refine ⟨?_, ?_, ?_⟩ <;>
    norm_num [c2Prices, insert_price, get_price, get_price_most_recent]

/-! ### numeric representations at the persistence boundary -/

/-- How a monetary value is represented when it crosses the relational-index
boundary in `domains/mod.rs`: either as arbitrary-precision decimal data
(`ZhangBigDecimal` rows, or `BigDecimal` bound via `to_string()`), or as an
IEEE-754 64-bit float (`f64`). -/
inductive NumericRepr
  | decimalText
  | float64
deriving DecidableEq, Repr

/-- One monetary column crossing the persistence boundary: the containing
struct or statement, the field, and its declared representation. -/
structure MonetaryField where
  container : String
  field : String
  storedAs : NumericRepr
deriving DecidableEq, Repr

/-- The monetary values crossing the persistence boundary in
`src/core/src/domains/mod.rs`, with their declared representations:
`AccountAmount.number` is `ZhangBigDecimal` (line 31), `StaticRow.amount` is
`ZhangBigDecimal` (line 46), `LotRow.amount` is `f64` (line 37),
`LotRow.price_amount` is `Option<f64>` (line 38), the posting insert binds
`previous_number: &ZhangBigDecimal` (line 105), and the price and lot
inserts/updates bind `BigDecimal::to_string()` (lines 193, 269, 272, 307,
308). -/
def monetaryBoundaryFields : List MonetaryField :=
  [⟨"AccountAmount", "number", .decimalText⟩,
   ⟨"StaticRow", "amount", .decimalText⟩,
   ⟨"LotRow", "amount", .float64⟩,
   ⟨"LotRow", "price_amount", .float64⟩,
   ⟨"transaction_postings.insert", "account_before_number", .decimalText⟩,
   ⟨"prices.insert", "amount", .decimalText⟩,
   ⟨"commodity_lots.insert", "amount", .decimalText⟩,
   ⟨"commodity_lots.insert", "price_amount", .decimalText⟩,
   ⟨"commodity_lots.update", "amount", .decimalText⟩,
   ⟨"commodity_lots.update", "price_amount", .decimalText⟩]

/-- A rational is dyadic when it is an integer divided by a power of two;
every finite IEEE-754 double denotes such a value.  Decimal quantities like
0.1 are not dyadic, so an `f64` read-back of them cannot be exact. -/
def IsDyadic (q : ℚ) : Prop := ∃ (m : ℤ) (e : ℕ), q = (m : ℚ) / 2 ^ e

/-- C3 (counterexample): not every monetary value at the persistence boundary
is represented as an arbitrary-precision decimal — the source's `LotRow`
struct, which lot matching reads back from the Index, declares its `amount`
(and `price_amount`) as `f64`. -/
theorem c3_float_counterexample :
    ¬ (∀ f ∈ monetaryBoundaryFields, f.storedAs = NumericRepr.decimalText) := by
  decide

/-- C3 (amended): every monetary value crossing the persistence boundary in
`domains/mod.rs` is written and read as arbitrary-precision decimal data,
except the two `LotRow` columns read back during lot matching, which are
declared `f64`; an `f64` holds only dyadic rationals, and the decimal 1/10
is not dyadic, so that read-back path is not exact on general decimals. -/
theorem c3_decimal_boundary :
    (∀ f ∈ monetaryBoundaryFields,
        f.container ≠ "LotRow" → f.storedAs = NumericRepr.decimalText) ∧
    (∀ f ∈ monetaryBoundaryFields,
        f.container = "LotRow" → f.storedAs = NumericRepr.float64) ∧
    ¬ IsDyadic (1 / 10) := by
  refine ⟨by decide, by decide, ?_⟩
  rintro ⟨m, e, hme⟩
  have h10 : (10 : ℚ) ≠ 0 := by norm_num
  have h2 : ((2 : ℚ) ^ e) ≠ 0 := by positivity
  have hint : (2 : ℤ) ^ e = 10 * m := by
    have : ((2 : ℚ) ^ e) = 10 * m := by
      field_simp at hme
      linarith [hme]
    exact_mod_cast this
  have h5 : (5 : ℤ) ∣ 2 ^ e := ⟨2 * m, by linarith [hint]⟩
  have hp : Prime (5 : ℤ) := by norm_num
  have := hp.dvd_of_dvd_pow h5
  norm_num at this

/-- Witness for C3: the `AccountAmount.number` column is decimal data. -/
theorem c3_decimal_boundary_witness :
    (⟨"AccountAmount", "number", NumericRepr.decimalText⟩ : MonetaryField)
        ∈ monetaryBoundaryFields ∧
      (⟨"AccountAmount", "number", NumericRepr.decimalText⟩ : MonetaryField).storedAs
        = NumericRepr.decimalText :=
  ⟨by decide, c3_decimal_boundary.1 _ (by decide) (by decide)⟩

/-! ### transaction_tags and transaction_links tables -/

/-- A row of the `transaction_tags` table. -/
structure TagRow where
  trx_id : String
  tag : String
deriving DecidableEq, Repr

/-- A row of the `transaction_links` table. -/
structure LinkRow where
  trx_id : String
  link : String
deriving DecidableEq, Repr

/-- The two tag/link tables of the Index. -/
structure TrxRefTables where
  transaction_tags : List TagRow
  transaction_links : List LinkRow
deriving DecidableEq, Repr

/-- Embeds `Operations::insert_transaction_tag` (`domains/mod.rs` lines 134-143):
`INSERT INTO transaction_tags (trx_id, tag)`. -/
def insert_transaction_tag (s : TrxRefTables) (id tag : String) : TrxRefTables :=
  { s with transaction_tags := s.transaction_tags ++ [⟨id, tag⟩] }

/-- Embeds `Operations::insert_transaction_link` (`domains/mod.rs` lines 144-153):
despite its name, its SQL is `INSERT INTO transaction_tags (trx_id, tag)` —
the link is written into the *tags* table, and nothing is ever inserted into
`transaction_links`. -/
def insert_transaction_link (s : TrxRefTables) (id link : String) : TrxRefTables :=
  { s with transaction_tags := s.transaction_tags ++ [⟨id, link⟩] }

/-- Embeds `Operations::trx_tags` (`domains/mod.rs` lines 381-393):
`select tag from transaction_tags where trx_id = $1`. -/
def trx_tags (s : TrxRefTables) (id : String) : List String :=
  (s.transaction_tags.filter fun r => r.trx_id == id).map (·.tag)

/-- Embeds `Operations::trx_links` (`domains/mod.rs` lines 395-407):
`select link from transaction_links where trx_id = $1`. -/
def trx_links (s : TrxRefTables) (id : String) : List String :=
  (s.transaction_links.filter fun r => r.trx_id == id).map (·.link)

/-- Index state after recording transaction `t1`, declared with the single
link `a` and no tags. -/
def c4State : TrxRefTables := insert_transaction_link ⟨[], []⟩ "t1" "a"

/-- C4: after a transaction declaring link `a` (and no tags) is recorded,
`trx_links` returns the empty list — not the declared link set — because
`insert_transaction_link` inserts into the `transaction_tags` table, which
also corrupts `trx_tags` into returning the link.  The `transaction_links`
table stays empty.  Moreover `insert_transaction_link` and
`insert_transaction_tag` write literally the same row. -/
theorem c4_links_stored_in_tags_table :
    trx_links c4State "t1" = [] ∧
    trx_tags c4State "t1" = ["a"] ∧
    c4State.transaction_links = [] ∧
    (∀ (s : TrxRefTables) (id v : String),
        insert_transaction_link s id v = insert_transaction_tag s id v) := by
  exact ⟨rfl, rfl, rfl, fun s id v => rfl⟩

/-! ### errors and transactions tables (idempotence across runs) -/

/-- Embeds `zhang_ast::SpanInfo` as used by `new_error`: filename, byte start, byte
end and raw content.  (The source calls the third field `end`, a reserved
word here, so it is named `stop`.) -/
structure SpanInfo where
  filename : Option String
  start : Int
  stop : Int
  content : String
deriving DecidableEq, Repr

/-- Modelled from the spec: the semantic error kinds of section 7 (the enum
lives in `domains/schemas.rs`, which is not among the provided sources). -/
inductive ErrorType
  | UnbalancedTransaction
  | TransactionHasMultipleImplicitPosting
  | TransactionCannotInferTradeAmount
  | AccountBalanceCheckError
  | AccountDoesNotExist
  | AccountClosed
  | CloseNonZeroAccount
  | CommodityDoesNotDefine
  | AccountNotAllowCommodity
  | IncludeNotFound
  | NoOrphanedPadError
  | InvalidTimezoneFallback
deriving DecidableEq, Repr

/-- Modelled from the spec: of the section-7 kinds, only
`InvalidTimezoneFallback` is a warning kind. -/
def ErrorType.isWarning : ErrorType → Bool
  | .InvalidTimezoneFallback => true
  | _ => false

/-- A row of the `errors` table
(`INSERT ... INTO errors(id, filename, span_start, span_end, content, error_type, metas)`,
`src/core/src/domains/mod.rs` lines 655-675). -/
structure ErrorRow where
  id : String
  filename : Option String
  span_start : Int
  span_end : Int
  content : String
  error_type : ErrorType
  metas : List (String × String)
deriving DecidableEq, Repr

/-- Embeds `Operations::new_error` (`domains/mod.rs` lines 655-675): appends an error
row whose `id` is `Uuid::new_v4().to_string()` — a fresh random UUID, passed
here explicitly as the draw `uuid`. -/
def new_error (errors : List ErrorRow) (uuid : String) (error_type : ErrorType)
    (span : SpanInfo) (metas : List (String × String)) : List ErrorRow :=
  errors ++ [⟨uuid, span.filename, span.start, span.stop, span.content, error_type, metas⟩]

/-- A row of the `transactions` table (`Operations::insert_transaction`,
`domains/mod.rs` lines 81-101).  Its `id` is supplied by the caller and, per
the spec, derived deterministically from the source span. -/
structure TransactionRow where
  id : String
  datetime : Nat
  flag : String
  payee : Option String
  narration : Option String
  source_file : Option String
  span_start : Int
  span_end : Int
deriving DecidableEq, Repr

/-- One write the Processor performs against the Index while applying the
directive stream: a transactions-table insert (`insert_transaction`) or an
errors-table insert (`new_error`). -/
inductive IndexWrite
  | trx (row : TransactionRow)
  | err (error_type : ErrorType) (span : SpanInfo) (metas : List (String × String))
deriving DecidableEq, Repr

/-- The two tables relevant to the idempotence claim. -/
structure IndexTables where
  transactions : List TransactionRow
  errors : List ErrorRow
deriving DecidableEq, Repr

/-- Applies the write stream, drawing `uuid n`, `uuid (n+1)`, ... for the
successive error ids, exactly as `new_error` draws a fresh `Uuid::new_v4()`
per inserted error row. -/
def applyWrites (uuid : Nat → String) : List IndexWrite → Nat → IndexTables → IndexTables
  | [], _, s => s
  | .trx r :: ws, n, s =>
      applyWrites uuid ws n { s with transactions := s.transactions ++ [r] }
  | .err ty sp m :: ws, n, s =>
      applyWrites uuid ws (n + 1) { s with errors := new_error s.errors (uuid n) ty sp m }

/-- Modelled from the spec: processing a source text deterministically yields
a stream of Index writes (transaction ids are derived from spans, section 9);
only the error-row id draws fresh randomness, namely the `uuid` stream.  Two
runs of the pipeline on the same source therefore differ at most in their
`uuid` draws. -/
def processSource (writes : List IndexWrite) (uuid : Nat → String) : IndexTables :=
  applyWrites uuid writes 0 ⟨[], []⟩

/-- The write stream of a source producing one balance-check error. -/
def c5Writes : List IndexWrite :=
  [.err .AccountBalanceCheckError ⟨some "example.zhang", 0, 10, "balance"⟩
      [("account_name", "Assets:MyCard")]]

/-- C5 (counterexample): two runs on the identical source are *not*
byte-identical in the errors table — `new_error` stamps each error row with a
fresh random `Uuid::new_v4()`, so the same source processed under two
different uuid draws yields different rows. -/
theorem c5_idempotence_counterexample :
    processSource c5Writes (fun _ => "run1-uuid") ≠
      processSource c5Writes (fun _ => "run2-uuid") := by
  simp [processSource, applyWrites, new_error, c5Writes]

/-- An error row with its random id erased. -/
def eraseErrorId (r : ErrorRow) : ErrorRow := { r with id := "" }

/-- Helper for C5: the write stream determines both tables up to error ids,
whatever uuid draws and accumulated states (equal up to error ids) each run
starts from. -/
theorem applyWrites_deterministic_mod_error_id
    (ws : List IndexWrite) :
    ∀ (u1 u2 : Nat → String) (n1 n2 : Nat) (s1 s2 : IndexTables),
      s1.transactions = s2.transactions →
      s1.errors.map eraseErrorId = s2.errors.map eraseErrorId →
      (applyWrites u1 ws n1 s1).transactions = (applyWrites u2 ws n2 s2).transactions ∧
        (applyWrites u1 ws n1 s1).errors.map eraseErrorId
          = (applyWrites u2 ws n2 s2).errors.map eraseErrorId := by
  induction ws with
  | nil => intro u1 u2 n1 n2 s1 s2 ht he; exact ⟨ht, he⟩
  | cons w ws ih =>
    intro u1 u2 n1 n2 s1 s2 ht he
    cases w with
    | trx r =>
      exact ih u1 u2 n1 n2 _ _ (by simp [ht]) he
    | err ty sp m =>
      refine ih u1 u2 (n1 + 1) (n2 + 1) _ _ ht ?_
      simp [new_error, eraseErrorId, he]

/-- C5 (amended): processing the same source twice yields byte-identical
rows in every table other than `errors`, and byte-identical `errors` rows
except for the `id` column, which is a fresh random UUID on each run. -/
theorem c5_idempotence_mod_error_id :
    ∀ (writes : List IndexWrite) (u1 u2 : Nat → String),
      (processSource writes u1).transactions = (processSource writes u2).transactions ∧
        (processSource writes u1).errors.map eraseErrorId
          = (processSource writes u2).errors.map eraseErrorId := by
  intro writes u1 u2
  exact applyWrites_deterministic_mod_error_id writes u1 u2 0 0 _ _ rfl rfl

/-! ### transaction_postings and the balance check -/

/-- A posting row joined with its transaction, as read by
`Operations::account_target_day_balance` (`domains/mod.rs` lines 200-217):
the posting's account, after-number and after-commodity, and the joined
transaction's `datetime` and `sequence`. -/
structure PostingRow where
  trx_id : String
  account : String
  datetime : Nat
  sequence : Nat
  account_after_number : ℚ
  account_after_commodity : String
deriving DecidableEq, Repr

/-- Whether posting row `a` may precede row `b` under
`ORDER BY datetime DESC, sequence DESC` (ties keep scan order). -/
def postingDescLe (a b : PostingRow) : Bool :=
  decide (b.datetime < a.datetime) ||
    (a.datetime == b.datetime && decide (b.sequence ≤ a.sequence))

/-- Stable insertion for `ORDER BY datetime DESC, sequence DESC`. -/
def insertPostingDesc (r : PostingRow) : List PostingRow → List PostingRow
  | [] => [r]
  | x :: xs => if postingDescLe r x then r :: x :: xs else x :: insertPostingDesc r xs

/-- Stable sort realizing `ORDER BY datetime DESC, sequence DESC`. -/
def sortPostingsDesc : List PostingRow → List PostingRow
  | [] => []
  | x :: xs => insertPostingDesc x (sortPostingsDesc xs)

/-- Embeds `Operations::account_target_day_balance` (`domains/mod.rs` lines 200-217):
the latest `account_after_number`/`commodity` of the account in the given
commodity at or before the given datetime
(`order by datetime desc, sequence desc limit 1`), or none. -/
def account_target_day_balance (postings : List PostingRow) (account_name : String)
    (datetime : Nat) (currency : String) : Option (ℚ × String) :=
  ((sortPostingsDesc (postings.filter fun p =>
      p.account == account_name && decide (p.datetime ≤ datetime) &&
        p.account_after_commodity == currency)).head?).map
    fun p => (p.account_after_number, p.account_after_commodity)

/-- Decimal display of a rational, mirroring `BigDecimal`'s `Display` for the
integral values used here. -/
def decimalDisplay (q : ℚ) : String :=
  if q.den = 1 then toString q.num else toString q.num ++ "/" ++ toString q.den

/-- The account's current sum used by the balance check: the latest running
total in the Index, or 0 when the account has no postings in that commodity. -/
def balance_actual (postings : List PostingRow) (account_name : String)
    (datetime : Nat) (currency : String) : ℚ :=
  ((account_target_day_balance postings account_name datetime currency).map Prod.fst).getD 0

/-- Modelled from the spec: balance-directive handling (in `process.rs`, not
among the provided sources).  The account's current sum in the asserted
commodity is computed from the Index via `account_target_day_balance` up to
the check's date-time; when its distance to the asserted amount exceeds the
tolerance, one `AccountBalanceCheckError` with metadata
`{account_name, expected, actual, distance}` is emitted (spec section 4.8 and
test `should_raise_non_balance_error_only`). -/
def balance_check (postings : List PostingRow) (account_name : String) (datetime : Nat)
    (asserted : ℚ) (currency : String) (tolerance : ℚ) :
    Option (ErrorType × List (String × String)) :=
  let actual := balance_actual postings account_name datetime currency
  if tolerance < |asserted - actual| then
    some (.AccountBalanceCheckError,
      [("account_name", account_name), ("expected", decimalDisplay asserted),
       ("actual", decimalDisplay actual), ("distance", decimalDisplay |asserted - actual|)])
  else none

/-- C6: the balance check emits an error exactly when the distance between
the Index-computed actual sum and the asserted amount exceeds the tolerance;
any emitted error is an `AccountBalanceCheckError` whose metadata keys are
`account_name`, `expected`, `actual`, `distance` with `account_name` bound to
the checked account; and asserting 10 CNY on an account with no postings
(actual 0, default tolerance 1/100) produces exactly that one error. -/
theorem c6_balance_check_error :
    (∀ (postings : List PostingRow) (a : String) (d : Nat) (asserted : ℚ)
        (c : String) (tol : ℚ),
        (balance_check postings a d asserted c tol).isSome ↔
          tol < |balance_actual postings a d c - asserted|) ∧
    (∀ (postings : List PostingRow) (a : String) (d : Nat) (asserted : ℚ)
        (c : String) (tol : ℚ) (e : ErrorType × List (String × String)),
        balance_check postings a d asserted c tol = some e →
          e.1 = ErrorType.AccountBalanceCheckError ∧
          e.2.map Prod.fst = ["account_name", "expected", "actual", "distance"] ∧
          e.2.head? = some ("account_name", a)) ∧
    account_target_day_balance [] "Assets:MyCard" 3 "CNY" = none ∧
    balance_check [] "Assets:MyCard" 3 10 "CNY" (1 / 100)
      = some (ErrorType.AccountBalanceCheckError,
          [("account_name", "Assets:MyCard"), ("expected", "10"),
           ("actual", "0"), ("distance", "10")]) := by
  refine ⟨?_, ?_, rfl, ?_⟩
  · intro postings a d asserted c tol
    rw [abs_sub_comm]
    unfold balance_check
    by_cases h : tol < |asserted - balance_actual postings a d c| <;> simp [h]
  · intro postings a d asserted c tol e he
    unfold balance_check at he
    by_cases h : tol < |asserted - balance_actual postings a d c|
    · simp only [h, if_true] at he
      obtain rfl := Option.some.inj he
      exact ⟨rfl, rfl, rfl⟩
    · simp [h] at he
  · norm_num [balance_check, balance_actual, account_target_day_balance,
      sortPostingsDesc, decimalDisplay]
    exact ⟨rfl, rfl, rfl⟩

/-- Witness for C6: the error-emission characterization applied at the
S3 scenario (balance 10 CNY on an account with no postings). -/
theorem c6_balance_check_error_witness :
    balance_check [] "Assets:MyCard" 3 10 "CNY" (1 / 100)
        = some (ErrorType.AccountBalanceCheckError,
            [("account_name", "Assets:MyCard"), ("expected", "10"),
             ("actual", "0"), ("distance", "10")]) ∧
      (ErrorType.AccountBalanceCheckError,
          [("account_name", "Assets:MyCard"), ("expected", "10"),
           ("actual", "0"), ("distance", "10")]).1 = ErrorType.AccountBalanceCheckError ∧
      ([("account_name", "Assets:MyCard"), ("expected", "10"),
        ("actual", "0"), ("distance", "10")] : List (String × String)).map Prod.fst
        = ["account_name", "expected", "actual", "distance"] ∧
      ([("account_name", "Assets:MyCard"), ("expected", "10"),
        ("actual", "0"), ("distance", "10")] : List (String × String)).head?
        = some ("account_name", "Assets:MyCard") := by
  have hc : balance_check [] "Assets:MyCard" 3 10 "CNY" (1 / 100)
      = some (ErrorType.AccountBalanceCheckError,
          [("account_name", "Assets:MyCard"), ("expected", "10"),
           ("actual", "0"), ("distance", "10")]) := by
    norm_num [balance_check, balance_actual, account_target_day_balance,
      sortPostingsDesc, decimalDisplay]
    exact ⟨rfl, rfl, rfl⟩
  exact ⟨hc, c6_balance_check_error.2.1 [] "Assets:MyCard" 3 10 "CNY" (1 / 100) _ hc⟩

/-! ### accounts table and the close directive -/

/-- A row of the `accounts` table
(`INSERT OR REPLACE INTO accounts(date, type, name, status, alias)`,
`src/core/src/domains/mod.rs` lines 67-80).  `status` is the string
`"Open"` or `"Close"`; the source's `alias` column is named `account_alias`
here because `alias` is reserved. -/
structure AccountRow where
  date : Nat
  account_type : String
  name : String
  status : String
  account_alias : Option String
deriving DecidableEq, Repr

/-- Embeds `Operations::close_account` (`domains/mod.rs` lines 698-705):
`update accounts set status = 'Close' where name = $1`. -/
def close_account (accounts : List AccountRow) (account_name : String) :
    List AccountRow :=
  accounts.map fun a =>
    if a.name == account_name then { a with status := "Close" } else a

/-- The Index state touched by a close directive: the accounts table, the
account inventories (`commodity_lots`), and the errors table. -/
structure CloseState where
  accounts : List AccountRow
  commodity_lots : List CommodityLot
  errors : List ErrorRow
deriving DecidableEq, Repr

/-- Modelled from the spec: close-directive handling (in `process.rs`, not
among the provided sources).  If any lot held by the account has non-zero
quantity, a `CloseNonZeroAccount` error is recorded via `new_error` and the
account's status is left unchanged; otherwise the status is set to `Close`
via `close_account` and no error is emitted (spec sections 4.9 and 8-S2, and
the `close_non_zero_account` tests). -/
def process_close (st : CloseState) (uuid : String) (span : SpanInfo)
    (account_name : String) : CloseState :=
  if (st.commodity_lots.filter fun l => l.account == account_name).any
      (fun l => !(l.amount == 0)) then
    { st with errors := new_error st.errors uuid .CloseNonZeroAccount span [] }
  else
    { st with accounts := close_account st.accounts account_name }

/-- C7: closing an account holding a non-zero lot records one
`CloseNonZeroAccount` error and leaves the accounts table — in particular the
account's status — unchanged; closing an account all of whose lots are zero
records no error and sets the account's status to `Close`. -/
theorem c7_close_non_zero_account :
    ∀ (st : CloseState) (u : String) (sp : SpanInfo) (a : String),
      ((∃ l ∈ st.commodity_lots, l.account = a ∧ l.amount ≠ 0) →
        (process_close st u sp a).accounts = st.accounts ∧
          (process_close st u sp a).errors
            = st.errors ++ [⟨u, sp.filename, sp.start, sp.stop, sp.content,
                .CloseNonZeroAccount, []⟩]) ∧
      ((∀ l ∈ st.commodity_lots, l.account = a → l.amount = 0) →
        (process_close st u sp a).errors = st.errors ∧
          (∀ acc ∈ (process_close st u sp a).accounts, acc.name = a →
            acc.status = "Close")) := by
  intro st u sp a
  constructor
  · rintro ⟨l, hl, hla, hln⟩
    have hc : (st.commodity_lots.filter fun l => l.account == a).any
        (fun l => !(l.amount == 0)) = true := by
      refine List.any_eq_true.mpr ⟨l, List.mem_filter.mpr ⟨hl, ?_⟩, ?_⟩ <;>
        simp [hla, hln]
    simp [process_close, hc, new_error]
  · intro hz
    have hc : (st.commodity_lots.filter fun l => l.account == a).any
        (fun l => !(l.amount == 0)) = false := by
      rw [List.any_eq_false]
      intro l hl
      have hla := List.mem_filter.mp hl
      have := hz l hla.1 (by simpa using hla.2)
      simp [this]
    refine ⟨by simp [process_close, hc], ?_⟩
    intro acc hacc hname
    simp only [process_close, hc, Bool.false_eq_true, if_false] at hacc
    simp only [close_account, List.mem_map] at hacc
    obtain ⟨b, _, hb⟩ := hacc
    by_cases hbn : b.name = a
    · rw [← hb]
      simp [hbn]
    · rw [← hb] at hname ⊢
      simp [hbn] at hname

/-- Witness for C7: both branches applied at the test ledgers — an account
holding a −50 CNY lot (close refused, status untouched) and an account with
no lots (close succeeds). -/
theorem c7_close_non_zero_account_witness :
    ((∃ l ∈ [(⟨"Assets:MyCard", "CNY", none, -50, none, none⟩ : CommodityLot)],
        l.account = "Assets:MyCard" ∧ l.amount ≠ 0) ∧
      (process_close ⟨[⟨1, "Assets", "Assets:MyCard", "Open", none⟩],
          [⟨"Assets:MyCard", "CNY", none, -50, none, none⟩], []⟩ "u1"
          ⟨some "example.zhang", 0, 1, "close"⟩ "Assets:MyCard").accounts
        = [⟨1, "Assets", "Assets:MyCard", "Open", none⟩]) ∧
    ((∀ l ∈ ([] : List CommodityLot), l.account = "Assets:MyCard" → l.amount = 0) ∧
      (process_close ⟨[⟨1, "Assets", "Assets:MyCard", "Open", none⟩], [], []⟩ "u1"
          ⟨some "example.zhang", 0, 1, "close"⟩ "Assets:MyCard").errors = []) := by
  have hnz : ∃ l ∈ [(⟨"Assets:MyCard", "CNY", none, -50, none, none⟩ : CommodityLot)],
      l.account = "Assets:MyCard" ∧ l.amount ≠ 0 :=
    ⟨_, List.mem_singleton.mpr rfl, rfl, by norm_num⟩
  have hz : ∀ l ∈ ([] : List CommodityLot), l.account = "Assets:MyCard" → l.amount = 0 := by
    simp
  refine ⟨⟨hnz, ?_⟩, hz, ?_⟩
  · exact (c7_close_non_zero_account _ "u1" _ "Assets:MyCard").1 hnz |>.1
  · exact (c7_close_non_zero_account _ "u1" _ "Assets:MyCard").2 hz |>.1

/-! ### the Store's options map and the options resolver -/

/-- The Store's `options: HashMap<String, String>`, embedded as an
association list holding at most one entry per key. -/
abbrev OptionsMap := List (String × String)

/-- Embeds `Operations::insert_or_update_options` (`domains/mod.rs` lines 677-682):
`store.options.insert(key, value)` — replaces the entry already present for
the key, otherwise adds one. -/
def insert_or_update_options : OptionsMap → String → String → OptionsMap
  | [], key, value => [(key, value)]
  | p :: ps, key, value =>
      if p.1 == key then (key, value) :: ps
      else p :: insert_or_update_options ps key value

/-- Embeds `Operations::option` (`domains/mod.rs` lines 323-330):
`store.options.get(key)`. -/
def option (m : OptionsMap) (key : String) : Option String :=
  (m.find? fun p => p.1 == key).map Prod.snd

/-- Modelled from the spec: the built-in option defaults of section 4.3
(`options.rs` is not among the provided sources).  The `timezone` default is
the system IANA zone, a parameter here. -/
def defaultOptions (systemTz : String) : OptionsMap :=
  [("operating_currency", "CNY"), ("default_rounding", "RoundDown"),
   ("default_balance_tolerance_precision", "2"), ("default_commodity_precision", "2"),
   ("timezone", systemTz), ("title", ""), ("url", "")]

/-- The options state after loading: the Store's options map plus the
warning-kind errors emitted while resolving them. -/
structure LoadedOptions where
  options : OptionsMap
  warnings : List ErrorType
deriving DecidableEq, Repr

/-- Modelled from the spec: processing one user `option` directive
(`process.rs` and `options.rs` are not among the provided sources).  The pair
is stored via `insert_or_update_options`; a `timezone` value that is not a
recognizable IANA zone (`isValidTz`, standing for `chrono_tz` parsing) is
replaced by the system zone and an `InvalidTimezoneFallback` warning is
emitted (spec section 4.3 and the
`should_fallback_to_use_system_timezone_given_invalid_timezone` test). -/
def apply_option_directive (isValidTz : String → Bool) (systemTz : String)
    (st : LoadedOptions) (kv : String × String) : LoadedOptions :=
  if kv.1 == "timezone" && !isValidTz kv.2 then
    { options := insert_or_update_options st.options "timezone" systemTz,
      warnings := st.warnings ++ [.InvalidTimezoneFallback] }
  else
    { st with options := insert_or_update_options st.options kv.1 kv.2 }

/-- Modelled from the spec: loading starts from the built-in defaults and
applies the user's `option` directives in source order. -/
def load_options (isValidTz : String → Bool) (systemTz : String)
    (userOptions : List (String × String)) : LoadedOptions :=
  userOptions.foldl (apply_option_directive isValidTz systemTz)
    ⟨defaultOptions systemTz, []⟩

/-- The user's last `option` declaration for a key, if any. -/
def lastUserDeclaration (userOptions : List (String × String)) (key : String) :
    Option String :=
  (userOptions.reverse.find? fun p => p.1 == key).map Prod.snd

/-- The value a user option directive actually stores: itself, except that an
unrecognizable timezone is replaced by the system zone. -/
def normalizeOptionValue (isValidTz : String → Bool) (systemTz : String)
    (kv : String × String) : String × String :=
  if kv.1 == "timezone" && !isValidTz kv.2 then ("timezone", systemTz) else kv

/-- Helper: lookup in the empty map. -/
theorem option_nil (key : String) : option [] key = none := rfl

/-- Helper: lookup in a non-empty map. -/
theorem option_cons (p : String × String) (ps : OptionsMap) (key : String) :
    option (p :: ps) key = if p.1 = key then some p.2 else option ps key := by
  by_cases h : p.1 = key
  · simp [option, List.find?_cons_of_pos, h]
  · simp [option, List.find?_cons_of_neg, h]

/-- Helper: lookup after a map insert. -/
theorem option_insert (m : OptionsMap) (k v key : String) :
    option (insert_or_update_options m k v) key
      = if key = k then some v else option m key := by
  induction m with
  | nil =>
    by_cases h : key = k
    · simp [insert_or_update_options, option_cons, option_nil, h]
    · simp [insert_or_update_options, option_cons, option_nil, h, Ne.symm h]
  | cons p ps ih =>
    by_cases hp : p.1 = k
    · by_cases h : key = k
      · simp [insert_or_update_options, hp, option_cons, h]
      · have hpk : p.1 ≠ key := fun hc => h ((hc.symm.trans hp) : key = k)
        simp [insert_or_update_options, hp, option_cons, h, Ne.symm h, hpk]
    · by_cases h : key = k
      · have hpk : p.1 ≠ key := fun hc => hp (hc.trans h)
        subst h
        simp [insert_or_update_options, hp, option_cons, hpk]
        simpa using ih
      · simp [insert_or_update_options, hp, option_cons, ih, h]

/-- Helper: no declarations, no last declaration. -/
theorem lastUserDeclaration_nil (key : String) : lastUserDeclaration [] key = none := rfl

/-- Helper: the last declaration among `kv :: uds` is the last one in `uds`
when that exists, and otherwise `kv` itself when its key matches. -/
theorem lastUserDeclaration_cons (kv : String × String)
    (uds : List (String × String)) (key : String) :
    lastUserDeclaration (kv :: uds) key
      = (lastUserDeclaration uds key).or
          (if kv.1 = key then some kv.2 else none) := by
  unfold lastUserDeclaration
  rw [List.reverse_cons, List.find?_append]
  by_cases h : kv.1 = key
  · cases hfind : List.find? (fun p => p.1 == key) uds.reverse <;>
      simp [h, hfind, List.find?_cons_of_pos]
  · cases hfind : List.find? (fun p => p.1 == key) uds.reverse <;>
      simp [h, hfind, List.find?_cons_of_neg]

/-- Helper: normalization never changes the key. -/
theorem normalizeOptionValue_fst (ivt : String → Bool) (tz : String)
    (kv : String × String) : (normalizeOptionValue ivt tz kv).1 = kv.1 := by
  unfold normalizeOptionValue
  by_cases h : kv.1 == "timezone" && !ivt kv.2
  · simp only [h, if_true]
    exact (eq_of_beq (Bool.and_elim_left h)).symm
  · simp [h]

/-- Folding plain `insert_or_update_options` over a list of pairs. -/
def foldInserts (m : OptionsMap) (l : List (String × String)) : OptionsMap :=
  l.foldl (fun acc kv => insert_or_update_options acc kv.1 kv.2) m

/-- Helper: after folding inserts, a lookup returns the last inserted value
for the key, or falls through to the initial map. -/
theorem option_foldInserts (l : List (String × String)) :
    ∀ (m : OptionsMap) (key : String),
      option (foldInserts m l) key
        = ((lastUserDeclaration l key).elim (option m key) some) := by
  induction l with
  | nil => intro m key; simp [foldInserts, lastUserDeclaration_nil]
  | cons kv uds ih =>
    intro m key
    have hstep : foldInserts m (kv :: uds)
        = foldInserts (insert_or_update_options m kv.1 kv.2) uds := rfl
    rw [hstep, ih, lastUserDeclaration_cons]
    cases hlast : lastUserDeclaration uds key with
    | some v => simp
    | none =>
      by_cases h : kv.1 = key
      · simp [h, option_insert]
      · simp [h, option_insert, Ne.symm h]

/-- Helper: one option directive stores exactly the normalized pair. -/
theorem apply_option_directive_options (ivt : String → Bool) (tz : String)
    (st : LoadedOptions) (kv : String × String) :
    (apply_option_directive ivt tz st kv).options
      = insert_or_update_options st.options
          (normalizeOptionValue ivt tz kv).1 (normalizeOptionValue ivt tz kv).2 := by
  unfold apply_option_directive normalizeOptionValue
  by_cases h : (kv.1 == "timezone" && !ivt kv.2) = true
  · rw [if_pos h, if_pos h]
  · rw [if_neg h, if_neg h]

/-- Helper: one option directive appends a warning exactly when its timezone
value is invalid. -/
theorem apply_option_directive_warnings (ivt : String → Bool) (tz : String)
    (st : LoadedOptions) (kv : String × String) :
    (apply_option_directive ivt tz st kv).warnings
      = st.warnings ++
          (if (kv.1 == "timezone" && !ivt kv.2) = true
           then [ErrorType.InvalidTimezoneFallback] else []) := by
  unfold apply_option_directive
  by_cases h : (kv.1 == "timezone" && !ivt kv.2) = true
  · rw [if_pos h, if_pos h]
  · rw [if_neg h, if_neg h]; simp

/-- Helper: the options map built by the loader is the plain insert-fold of
the normalized user directives over the defaults. -/
theorem foldl_apply_options (ivt : String → Bool) (tz : String) :
    ∀ (uds : List (String × String)) (st : LoadedOptions),
      (uds.foldl (apply_option_directive ivt tz) st).options
        = foldInserts st.options (uds.map (normalizeOptionValue ivt tz)) := by
  intro uds
  induction uds with
  | nil => intro st; rfl
  | cons kv uds ih =>
    intro st
    show (List.foldl _ (apply_option_directive ivt tz st kv) uds).options = _
    rw [ih, apply_option_directive_options]
    rfl

/-- Helper: the loader's options map, decomposed. -/
theorem load_options_options_eq (ivt : String → Bool) (tz : String)
    (uds : List (String × String)) :
    (load_options ivt tz uds).options
      = foldInserts (defaultOptions tz) (uds.map (normalizeOptionValue ivt tz)) :=
  foldl_apply_options ivt tz uds _

/-- Helper: normalization is the identity when the pair is not an invalid
timezone declaration. -/
theorem normalizeOptionValue_eq_self (ivt : String → Bool) (tz : String)
    (kv : String × String) (h : kv.1 ≠ "timezone" ∨ ivt kv.2 = true) :
    normalizeOptionValue ivt tz kv = kv := by
  unfold normalizeOptionValue
  rcases h with h | h
  · rw [if_neg]
    simp [h]
  · rw [if_neg]
    simp [h]

/-- Helper: an invalid timezone declaration normalizes to the system zone. -/
theorem normalizeOptionValue_eq_fallback (ivt : String → Bool) (tz : String)
    (kv : String × String) (h1 : kv.1 = "timezone") (h2 : ivt kv.2 = false) :
    normalizeOptionValue ivt tz kv = ("timezone", tz) := by
  unfold normalizeOptionValue
  rw [if_pos]
  simp [h1, h2]

/-- Helper: normalization leaves the last declaration of a non-timezone key
unchanged. -/
theorem lastUserDeclaration_map_of_ne (ivt : String → Bool) (tz : String)
    (key : String) (hk : key ≠ "timezone") :
    ∀ uds : List (String × String),
      lastUserDeclaration (uds.map (normalizeOptionValue ivt tz)) key
        = lastUserDeclaration uds key := by
  intro uds
  induction uds with
  | nil => rfl
  | cons kv uds ih =>
    rw [List.map_cons, lastUserDeclaration_cons, lastUserDeclaration_cons, ih]
    congr 1
    unfold normalizeOptionValue
    by_cases h : (kv.1 == "timezone" && !ivt kv.2) = true
    · rw [if_pos h]
      have h1 : kv.1 = "timezone" := eq_of_beq (Bool.and_elim_left h)
      simp [Ne.symm hk, h1]
    · rw [if_neg h]

/-- Helper: normalization is the identity when every timezone declaration is
valid. -/
theorem map_normalize_of_all_valid (ivt : String → Bool) (tz : String) :
    ∀ uds : List (String × String),
      (∀ kv ∈ uds, kv.1 = "timezone" → ivt kv.2 = true) →
        uds.map (normalizeOptionValue ivt tz) = uds := by
  intro uds h
  induction uds with
  | nil => rfl
  | cons kv uds ih =>
    rw [List.map_cons, ih (fun x hx => h x (List.mem_cons_of_mem kv hx))]
    congr 1
    unfold normalizeOptionValue
    by_cases h1 : kv.1 = "timezone"
    · have := h kv (List.mem_cons_self kv uds) h1
      simp [this]
    · simp [h1]

/-- Helper: the stored timezone is the last declared one, with invalid values
replaced by the system zone. -/
theorem lastUserDeclaration_map_timezone (ivt : String → Bool) (tz : String) :
    ∀ uds : List (String × String),
      lastUserDeclaration (uds.map (normalizeOptionValue ivt tz)) "timezone"
        = (lastUserDeclaration uds "timezone").map
            (fun v => if ivt v then v else tz) := by
  intro uds
  induction uds with
  | nil => rfl
  | cons kv uds ih =>
    rw [List.map_cons, lastUserDeclaration_cons, lastUserDeclaration_cons, ih]
    cases hlast : lastUserDeclaration uds "timezone" with
    | some v => simp
    | none =>
      simp only [Option.map_none, Option.none_or]
      by_cases h1 : kv.1 = "timezone"
      · by_cases h2 : ivt kv.2 = true
        · rw [normalizeOptionValue_eq_self ivt tz kv (Or.inr h2)]
          simp [h1, h2]
        · rw [normalizeOptionValue_eq_fallback ivt tz kv h1 (Bool.eq_false_iff.mpr h2)]
          simp [h1, Bool.eq_false_iff.mpr h2]
      · rw [normalizeOptionValue_eq_self ivt tz kv (Or.inl h1)]
        simp [h1]

/-- Helper: membership in an inserted map's key list. -/
theorem mem_keys_insert (k v x : String) :
    ∀ m : OptionsMap, x ∈ (insert_or_update_options m k v).map Prod.fst →
      x = k ∨ x ∈ m.map Prod.fst := by
  intro m
  induction m with
  | nil => intro h; simp [insert_or_update_options] at h; exact Or.inl h
  | cons p ps ih =>
    intro h
    by_cases hp : (p.1 == k) = true
    · rw [insert_or_update_options, if_pos hp] at h
      rcases List.mem_map.mp h with ⟨q, hq, hqx⟩
      rcases List.mem_cons.mp hq with hq1 | hq2
      · exact Or.inl (by rw [← hqx, hq1])
      · exact Or.inr (List.mem_map.mpr ⟨q, List.mem_cons_of_mem p hq2, hqx⟩)
    · rw [insert_or_update_options, if_neg hp] at h
      rcases List.mem_map.mp h with ⟨q, hq, hqx⟩
      rcases List.mem_cons.mp hq with hq1 | hq2
      · exact Or.inr (List.mem_map.mpr ⟨p, List.mem_cons_self p ps, by rw [← hqx, hq1]⟩)
      · rcases ih (List.mem_map.mpr ⟨q, hq2, hqx⟩) with h1 | h2
        · exact Or.inl h1
        · exact Or.inr (List.mem_map.mpr (by
            rcases List.mem_map.mp h2 with ⟨r, hr, hrx⟩
            exact ⟨r, List.mem_cons_of_mem p hr, hrx⟩))

/-- Helper: inserting preserves key uniqueness. -/
theorem keys_insert_nodup (k v : String) :
    ∀ m : OptionsMap, (m.map Prod.fst).Nodup →
      ((insert_or_update_options m k v).map Prod.fst).Nodup := by
  intro m
  induction m with
  | nil => intro _; simp [insert_or_update_options]
  | cons p ps ih =>
    intro hnd
    rw [List.map_cons, List.nodup_cons] at hnd
    by_cases hp : (p.1 == k) = true
    · rw [insert_or_update_options, if_pos hp, List.map_cons, List.nodup_cons]
      exact ⟨by rw [← eq_of_beq hp]; exact hnd.1, hnd.2⟩
    · rw [insert_or_update_options, if_neg hp, List.map_cons, List.nodup_cons]
      refine ⟨fun hmem => ?_, ih hnd.2⟩
      rcases mem_keys_insert k v p.1 ps hmem with h1 | h2
      · exact hp (beq_iff_eq.mpr h1)
      · exact hnd.1 h2

/-- Helper: folding inserts preserves key uniqueness. -/
theorem keys_foldInserts_nodup :
    ∀ (l : List (String × String)) (m : OptionsMap),
      (m.map Prod.fst).Nodup → ((foldInserts m l).map Prod.fst).Nodup := by
  intro l
  induction l with
  | nil => intro m h; exact h
  | cons kv uds ih =>
    intro m h
    exact ih _ (keys_insert_nodup kv.1 kv.2 m h)

/-- Helper: warnings already emitted survive the rest of the fold. -/
theorem warnings_monotone (ivt : String → Bool) (tz : String) (x : ErrorType) :
    ∀ (uds : List (String × String)) (st : LoadedOptions),
      x ∈ st.warnings → x ∈ (uds.foldl (apply_option_directive ivt tz) st).warnings := by
  intro uds
  induction uds with
  | nil => intro st h; exact h
  | cons kv uds ih =>
    intro st h
    refine ih _ ?_
    rw [apply_option_directive_warnings]
    exact List.mem_append_left _ h

/-- Helper: any invalid timezone declaration in the stream leaves an
`InvalidTimezoneFallback` warning behind. -/
theorem warning_of_invalid_timezone_mem (ivt : String → Bool) (tz : String)
    (kv : String × String) (h1 : kv.1 = "timezone") (h2 : ivt kv.2 = false) :
    ∀ (uds : List (String × String)) (st : LoadedOptions), kv ∈ uds →
      ErrorType.InvalidTimezoneFallback
        ∈ (uds.foldl (apply_option_directive ivt tz) st).warnings := by
  intro uds
  induction uds with
  | nil => intro st h; exact absurd h (List.not_mem_nil kv)
  | cons q uds ih =>
    intro st hmem
    rcases List.mem_cons.mp hmem with hq | hq
    · subst hq
      refine warnings_monotone ivt tz _ uds _ ?_
      rw [apply_option_directive_warnings, if_pos (by simp [h1, h2])]
      exact List.mem_append_right _ (List.mem_singleton.mpr rfl)
    · exact ih _ hq

/-- C8 (counterexample): `option(key)` is *not* always the user's last
declaration or the default.  Loading `option "timezone" "MYZone"` with system
zone `Asia/Shanghai` (where `MYZone` is not a recognizable IANA zone) makes
`option("timezone")` return `Asia/Shanghai`, although the user's last
declaration for that key is `MYZone`. -/
theorem c8_last_wins_counterexample :
    ¬ (∀ (isValidTz : String → Bool) (systemTz : String)
        (userOptions : List (String × String)) (key : String),
        option (load_options isValidTz systemTz userOptions).options key
          = (lastUserDeclaration userOptions key).elim
              (option (defaultOptions systemTz) key) some) := by
  intro h
  have hx := h (fun s => s == "Antarctica/South_Pole") "Asia/Shanghai"
    [("timezone", "MYZone")] "timezone"
  exact absurd hx (by decide)

/-- C8 (amended): for every key other than `timezone` — and for every key
whatsoever when all declared timezone values are recognizable — `option(key)`
after loading is the user's last declaration when one exists and the built-in
default otherwise; an unrecognizable timezone value is instead replaced by
the system zone.  Repeated keys collapse to a single entry: the loaded
options map's keys are pairwise distinct. -/
theorem c8_options_last_wins :
    (∀ (ivt : String → Bool) (tz : String) (uds : List (String × String)) (key : String),
        key ≠ "timezone" →
          option (load_options ivt tz uds).options key
            = (lastUserDeclaration uds key).elim (option (defaultOptions tz) key) some) ∧
    (∀ (ivt : String → Bool) (tz : String) (uds : List (String × String)) (key : String),
        (∀ kv ∈ uds, kv.1 = "timezone" → ivt kv.2 = true) →
          option (load_options ivt tz uds).options key
            = (lastUserDeclaration uds key).elim (option (defaultOptions tz) key) some) ∧
    (∀ (ivt : String → Bool) (tz : String) (uds : List (String × String)),
        (((load_options ivt tz uds).options).map Prod.fst).Nodup) := by
  refine ⟨?_, ?_, ?_⟩
  · intro ivt tz uds key hk
    rw [load_options_options_eq, option_foldInserts,
      lastUserDeclaration_map_of_ne ivt tz key hk]
  · intro ivt tz uds key hvalid
    rw [load_options_options_eq, option_foldInserts,
      map_normalize_of_all_valid ivt tz uds hvalid]
  · intro ivt tz uds
    rw [load_options_options_eq]
    refine keys_foldInserts_nodup _ _ ?_
    have hkeys : (defaultOptions tz).map Prod.fst
        = ["operating_currency", "default_rounding", "default_balance_tolerance_precision",
           "default_commodity_precision", "timezone", "title", "url"] := rfl
    rw [hkeys]
    decide

/-- Witness for C8: a repeated `title` declaration — the last one wins. -/
theorem c8_options_last_wins_witness :
    ("title" ≠ "timezone") ∧
      option (load_options (fun _ => true) "Asia/Shanghai"
          [("title", "Example"), ("title", "Example2")]).options "title"
        = (lastUserDeclaration [("title", "Example"), ("title", "Example2")] "title").elim
            (option (defaultOptions "Asia/Shanghai") "title") some :=
  ⟨by decide, c8_options_last_wins.1 (fun _ => true) "Asia/Shanghai" _ "title" (by decide)⟩

/-- C9: when the ledger's last declared `timezone` value is not a
recognizable IANA zone, loading stores the system zone instead — so
`option("timezone")` returns the system zone's name — and an
`InvalidTimezoneFallback` error, a warning kind, is recorded. -/
theorem c9_invalid_timezone_fallback :
    ∀ (ivt : String → Bool) (tz : String) (uds : List (String × String)) (v : String),
      lastUserDeclaration uds "timezone" = some v → ivt v = false →
        option (load_options ivt tz uds).options "timezone" = some tz ∧
        ErrorType.InvalidTimezoneFallback ∈ (load_options ivt tz uds).warnings ∧
        ErrorType.InvalidTimezoneFallback.isWarning = true := by
  intro ivt tz uds v hlast hinv
  refine ⟨?_, ?_, rfl⟩
  · rw [load_options_options_eq, option_foldInserts,
      lastUserDeclaration_map_timezone, hlast]
    simp [hinv]
  · have hfind : ∃ kv, uds.reverse.find? (fun p => p.1 == "timezone") = some kv ∧ kv.2 = v := by
      unfold lastUserDeclaration at hlast
      cases hf : uds.reverse.find? (fun p => p.1 == "timezone") with
      | none => rw [hf] at hlast; simp at hlast
      | some kv => rw [hf] at hlast; exact ⟨kv, rfl, by simpa using hlast⟩
    obtain ⟨kv, hf, hv⟩ := hfind
    have hmem : kv ∈ uds := List.mem_reverse.mp (List.mem_of_find?_eq_some hf)
    have hbeq : (kv.1 == "timezone") = true := by simpa using List.find?_some hf
    have hkey : kv.1 = "timezone" := beq_iff_eq.mp hbeq
    exact warning_of_invalid_timezone_mem ivt tz kv hkey (hv ▸ hinv) uds _ hmem

/-- Witness for C9: the test ledger `option "timezone" "MYZone"` with system
zone `Asia/Shanghai`. -/
theorem c9_invalid_timezone_fallback_witness :
    lastUserDeclaration [("timezone", "MYZone")] "timezone" = some "MYZone" ∧
      ((fun s => s == "Antarctica/South_Pole") "MYZone") = false ∧
      option (load_options (fun s => s == "Antarctica/South_Pole") "Asia/Shanghai"
          [("timezone", "MYZone")]).options "timezone" = some "Asia/Shanghai" :=
  ⟨by decide, by decide,
   (c9_invalid_timezone_fallback (fun s => s == "Antarctica/South_Pole") "Asia/Shanghai"
      [("timezone", "MYZone")] "MYZone" (by decide) (by decide)).1⟩

/-! ### posting text serialization (src/src/target/text.rs) -/

/-- Modelled from the spec: posting/transaction flags, rendered `*` (posted)
and `!` (pending) (the `Flag` `Display` impl is not among the provided
sources; `text.rs` calls it via `to_string`). -/
inductive Flag
  | Posted
  | Pending
deriving DecidableEq, Repr

/-- The rendering of a flag, `*` or `!`. -/
def flag_to_target : Flag → String
  | .Posted => "*"
  | .Pending => "!"

/-- Embeds the `zhang_ast` amount: a number with a commodity. -/
structure Amount where
  number : ℚ
  currency : String
deriving DecidableEq, Repr

/-- Embeds `Amount`'s serialization (`text.rs` lines 45-49):
`format!("{} {}", self.number, self.currency)`. -/
def amount_to_target (a : Amount) : String :=
  decimalDisplay a.number ++ " " ++ a.currency

/-- A posting's price annotation: per-unit (`@`) or total (`@@`). -/
inductive PostingPrice
  | unit (a : Amount)
  | total (a : Amount)
deriving DecidableEq, Repr

/-- A posting of the serializer's AST (spec section 3): optional flag,
account, optional unit amount, optional cost spec, optional price
annotation. -/
structure Posting where
  flag : Option Flag
  account : String
  units : Option Amount
  cost : Option Amount
  price : Option PostingPrice
deriving DecidableEq, Repr

/-- Embeds `Posting`'s serialization (`text.rs` lines 117-128, marked
`// todo cost and price`): the flattened, space-joined vector of the optional
flag (rendered with a leading space), the account, and the optional unit
amount — nothing else. -/
def posting_to_target (p : Posting) : String :=
  String.intercalate " "
    (([p.flag.map (fun f => " " ++ flag_to_target f),
       some p.account,
       p.units.map amount_to_target]).filterMap id)

/-- C10: a posting's text serialization contains only the optional flag, the
account and the optional unit amount — it does not depend on the posting's
cost spec or price annotation at all, so any `{...}` cost, `@` price or `@@`
price is silently dropped; e.g. a posting of 10 AAPL bought at 100 USD
serializes to just `Assets:Broker 10 AAPL`. -/
theorem c10_posting_serialization_lossy :
    (∀ (p : Posting) (c : Option Amount) (pr : Option PostingPrice),
        posting_to_target { p with cost := c, price := pr } = posting_to_target p) ∧
    posting_to_target
        ⟨none, "Assets:Broker", some ⟨10, "AAPL"⟩, some ⟨100, "USD"⟩, none⟩
      = "Assets:Broker 10 AAPL" := by
  refine ⟨fun p c pr => rfl, ?_⟩
  norm_num [posting_to_target, amount_to_target, decimalDisplay]
  rfl

end Zhang
